import Mathlib

/-!
Shallow embedding of the `maximelamure/elasticsearch` Go client library
(`client.go`, `structs.go`) and verification of its specification claims.

The library is a thin HTTP wrapper: each API method builds a URL from the
configured base URL and its string arguments, optionally serializes a body,
delegates to the transport helper `sendHTTPRequest`, and unmarshals the JSON
response into a typed result struct.  We embed:

* the status-classification tail of `sendHTTPRequest` (the part that runs
  once the HTTP response has completed and its body has been read),
* the URL / request-body construction of every API method (`Search`,
  `MSearch`, `getAliasQuery`, ...), with Go slices modelled as `List`,
  Go strings as `String`, and the `make`-then-index-assign fill loops
  modelled as folds over an explicit `(slice, index)` state,
* the result-handling tail shared by the JSON-returning methods, with the
  transport outcome and the unmarshaller taken as parameters
  (`Except String _` models Go's `(value, error)` idiom), and
* the whole method surface as a step function on the client state, to state
  frame properties about the client's single field `Host`.
-/

namespace ESClient

/-- `http.StatusOK` from Go's `net/http`. -/
def statusOK : Nat := 200

/-- `http.StatusCreated` from Go's `net/http`. -/
def statusCreated : Nat := 201

/-- `http.StatusNotFound` from Go's `net/http`. -/
def statusNotFound : Nat := 404

/-- A completed HTTP response as the client sees it after `client.Do`
succeeds and `ioutil.ReadAll` has drained the body: the numeric status code
plus the full body text. -/
structure HTTPResponse where
  statusCode : Nat
  body : String
deriving DecidableEq

/-- Status-classification tail of `sendHTTPRequest` (src/client.go:450-460):
after reading the body, return `errors.New(string(response))` when
`StatusCode > http.StatusCreated && StatusCode < http.StatusNotFound`,
and otherwise return the body with a nil error. -/
def sendHTTPRequest (resp : HTTPResponse) : Except String String :=
  if statusCreated < resp.statusCode ∧ resp.statusCode < statusNotFound then
    Except.error resp.body
  else
    Except.ok resp.body

/-- C1: `sendHTTPRequest`, given a completed HTTP response, returns an error
if and only if the status code is strictly greater than 201 and strictly
less than 404; in the error case the error message is exactly the raw
response body, and in every other case the raw body is returned with a nil
error. -/
theorem sendHTTPRequest_error_iff (resp : HTTPResponse) :
    (sendHTTPRequest resp = Except.error resp.body ↔
      statusCreated < resp.statusCode ∧ resp.statusCode < statusNotFound) ∧
    (sendHTTPRequest resp = Except.ok resp.body ↔
      ¬ (statusCreated < resp.statusCode ∧ resp.statusCode < statusNotFound)) := by
  unfold sendHTTPRequest
  by_cases h : statusCreated < resp.statusCode ∧ resp.statusCode < statusNotFound <;>
    simp [h]

/-- C2 counterexample: a 500 Internal Server Error response is neither 2xx
nor 404, yet `sendHTTPRequest` returns its body as a success (nil error)
because `500 < 404` is false, contradicting the claim that every
non-2xx/non-404 status is surfaced as an error. -/
theorem sendHTTPRequest_500_not_error :
    ¬ (200 ≤ (500 : Nat) ∧ (500 : Nat) ≤ 299) ∧ (500 : Nat) ≠ 404 ∧
    sendHTTPRequest ⟨500, "boom"⟩ = Except.ok "boom" :=
  ⟨by decide, by decide, rfl⟩

/-- C2 amended: the error band of the transport helper is exactly the
statuses strictly between 201 and 404: every response in that band is
surfaced as an error carrying the raw body, and every response with status
at least 404 — in particular every 5xx — is returned as a success. -/
theorem sendHTTPRequest_error_band (resp : HTTPResponse) :
    (statusCreated < resp.statusCode → resp.statusCode < statusNotFound →
      sendHTTPRequest resp = Except.error resp.body) ∧
    (statusNotFound ≤ resp.statusCode →
      sendHTTPRequest resp = Except.ok resp.body) := by
  unfold sendHTTPRequest
  constructor
  · intro h1 h2
    simp [h1, h2]
  · intro h
    have : ¬ (statusCreated < resp.statusCode ∧ resp.statusCode < statusNotFound) := by
      rintro ⟨-, h2⟩
      exact absurd h (by omega)
    simp [this]

/-- Witness for C2 amended: status 400 is surfaced as an error wrapping the
body, status 500 is returned as a success. -/
theorem sendHTTPRequest_error_band_witness :
    sendHTTPRequest ⟨400, "bad"⟩ = Except.error "bad" ∧
    sendHTTPRequest ⟨500, "ise"⟩ = Except.ok "ise" :=
  ⟨(sendHTTPRequest_error_band ⟨400, "bad"⟩).1 (by decide) (by decide),
   (sendHTTPRequest_error_band ⟨500, "ise"⟩).2 (by decide)⟩

/-- C5 counterexample: a 400 Bad Request response (the status a duplicate
index actually produces) is in the 4xx range but is NOT returned as a
success: `sendHTTPRequest` surfaces it as an error, contradicting the claim
that every 4xx response body is handed back with a nil error. -/
theorem sendHTTPRequest_400_is_error :
    (400 ≤ (400 : Nat) ∧ (400 : Nat) ≤ 499) ∧
    sendHTTPRequest ⟨400, "dup-index"⟩ = Except.error "dup-index" :=
  ⟨by decide, rfl⟩

/-- C5 amended: a 4xx response is returned as a success (raw body, nil
error) exactly when its status is at least 404; 4xx statuses 400 through
403 fall in the transport helper's error band and are surfaced as errors. -/
theorem sendHTTPRequest_4xx (resp : HTTPResponse) :
    (404 ≤ resp.statusCode → resp.statusCode ≤ 499 →
      sendHTTPRequest resp = Except.ok resp.body) ∧
    (400 ≤ resp.statusCode → resp.statusCode < 404 →
      sendHTTPRequest resp = Except.error resp.body) := by
  unfold sendHTTPRequest
  constructor
  · intro h1 _
    have : ¬ (statusCreated < resp.statusCode ∧ resp.statusCode < statusNotFound) := by
      rintro ⟨-, h2⟩
      exact absurd h1 (by simp only [statusNotFound] at h2; omega)
    simp [this]
  · intro h1 h2
    have : statusCreated < resp.statusCode ∧ resp.statusCode < statusNotFound := by
      constructor <;> [unfold statusCreated; unfold statusNotFound] <;> omega
    simp [this]

/-- Witness for C5 amended: status 404 body is returned as success, status
403 is surfaced as an error. -/
theorem sendHTTPRequest_4xx_witness :
    sendHTTPRequest ⟨404, "nf"⟩ = Except.ok "nf" ∧
    sendHTTPRequest ⟨403, "fb"⟩ = Except.error "fb" :=
  ⟨(sendHTTPRequest_4xx ⟨404, "nf"⟩).1 (by decide) (by decide),
   (sendHTTPRequest_4xx ⟨403, "fb"⟩).2 (by decide) (by decide)⟩

/-- `0 < s.length` (Go's `len(s) > 0`) holds exactly for non-empty strings. -/
theorem string_length_pos_iff (s : String) : 0 < s.length ↔ s ≠ "" := by
  cases s with
  | mk data =>
    cases data with
    | nil => simp [String.length, String.ext_iff]
    | cons c cs => simp [String.length, String.ext_iff]

/-- URL built by `Search` (src/client.go:272-280): when the document type is
non-empty a trailing slash is appended to it, then the URL is
`host + "/" + indexName + "/" + documentType + "_search"`, with `"?explain"`
appended when the explain flag is set. -/
def searchURL (host indexName documentType : String) (explain : Bool) : String :=
  let docType := if 0 < documentType.length then documentType ++ "/" else documentType
  let url := host ++ "/" ++ indexName ++ "/" ++ docType ++ "_search"
  if explain then url ++ "?explain" else url

/-- C6: `Search` targets `base/indexName/documentType/_search` when the
document type is non-empty and `base/indexName/_search` when it is empty,
with `"?explain"` appended exactly when the explain flag is true. -/
theorem search_url_spec (host indexName documentType : String) (explain : Bool) :
    searchURL host indexName documentType explain =
      (if documentType = "" then host ++ "/" ++ indexName ++ "/" ++ "_search"
       else host ++ "/" ++ indexName ++ "/" ++ documentType ++ "/" ++ "_search") ++
      (if explain then "?explain" else "") := by
  unfold searchURL
  by_cases hd : documentType = ""
  · subst hd
    cases explain <;> simp
  · have hlen : 0 < documentType.length := (string_length_pos_iff documentType).2 hd
    cases explain <;> simp [hlen, hd, String.append_assoc]

/-- A multi-search query as in `structs.go`: a header line (index name,
document type) and a body line (the query for that index). -/
structure MSearchQuery where
  Header : String
  Body : String
deriving DecidableEq

/-- `strings.NewReplacer("\n", " ").Replace` on the character list: the
pattern is the single character `'\n'`, so the replacer substitutes a space
for each newline, one character at a time. -/
def replaceNLChars : List Char → List Char
  | [] => []
  | c :: rest => (if c = '\n' then ' ' else c) :: replaceNLChars rest

/-- `replacer.Replace(query.Body)` with `replacer = strings.NewReplacer("\n", " ")`. -/
def replaceNL (s : String) : String :=
  String.mk (replaceNLChars s.data)

/-- Go's `strings.Join(elems, sep)`: empty for no elements, the single
element alone, and otherwise the elements with `sep` interleaved. -/
def goJoin : List String → String → String
  | [], _ => ""
  | [s], _ => s
  | s :: rest, sep => s ++ sep ++ goJoin rest sep

/-- The `queriesList` loop in `MSearch` (src/client.go:300-303):
`queriesList[i] = query.Header + "\n" + replacer.Replace(query.Body)`. -/
def queriesList : List MSearchQuery → List String
  | [] => []
  | q :: rest => (q.Header ++ "\n" ++ replaceNL q.Body) :: queriesList rest

/-- The request body posted by `MSearch` (src/client.go:305):
`strings.Join(queriesList, "\n") + "\n"`. -/
def mSearchPayload (queries : List MSearchQuery) : String :=
  goJoin (queriesList queries) "\n" ++ "\n"

theorem goJoin_cons_append (a b sep : String) (l : List String) :
    goJoin ((a ++ b) :: l) sep = a ++ goJoin (b :: l) sep := by
  cases l with
  | nil => rfl
  | cons c cs => simp [goJoin, String.append_assoc]

theorem intercalate_go_eq (sep : String) (as : List String) :
    ∀ acc : String, String.intercalate.go acc sep as = goJoin (acc :: as) sep := by
  induction as with
  | nil => intro acc; rfl
  | cons b bs ih =>
    intro acc
    show String.intercalate.go (acc ++ sep ++ b) sep bs = _
    rw [ih (acc ++ sep ++ b)]
    rw [goJoin_cons_append (acc ++ sep) b]
    rfl

/-- `strings.Join` agrees with Lean's `String.intercalate`. -/
theorem goJoin_eq_intercalate (sep : String) (l : List String) :
    goJoin l sep = String.intercalate sep l := by
  cases l with
  | nil => rfl
  | cons a as =>
    show goJoin (a :: as) sep = String.intercalate.go a sep as
    rw [intercalate_go_eq sep as a]

/-- Character-level replacement is a `List.map`. -/
theorem replaceNLChars_eq_map (l : List Char) :
    replaceNLChars l = l.map (fun c => if c = '\n' then ' ' else c) := by
  induction l with
  | nil => rfl
  | cons c rest ih => simp [replaceNLChars, ih]

/-- C3: the body `MSearch` posts to `/_msearch` is the newline-join of one
`header + "\n" + body` pair per query in input order — with every newline
inside a query body replaced by a single space — followed by one trailing
newline. -/
theorem msearch_payload_spec (queries : List MSearchQuery) :
    mSearchPayload queries =
      String.intercalate "\n"
        (queries.map (fun q =>
          q.Header ++ "\n" ++
            String.mk (q.Body.data.map (fun c => if c = '\n' then ' ' else c)))) ++
        "\n" := by
  unfold mSearchPayload
  rw [goJoin_eq_intercalate]
  congr 2
  induction queries with
  | nil => rfl
  | cons q rest ih =>
    simp [queriesList, ih, replaceNL, replaceNLChars_eq_map]

/-- One step of the Go idiom `slice[i] = x; i++` on a presized slice,
modelled as a `(slice, index)` state. -/
def setNext (st : List String × Nat) (x : String) : List String × Nat :=
  (st.1.set st.2 x, st.2 + 1)

/-- Filling a presized slice by consecutive `slice[i] = f x; i++` steps
overwrites the `mid` section with `l.map f`, leaving the part already
written (`done`) and the tail (`suf`) alone, and advances the index by
`l.length`. -/
theorem foldl_setNext_fill {α : Type} (f : α → String) (l : List α) :
    ∀ (done mid suf : List String), mid.length = l.length →
      l.foldl (fun st x => setNext st (f x)) (done ++ (mid ++ suf), done.length) =
        (done ++ (l.map f ++ suf), done.length + l.length) := by
  induction l with
  | nil =>
    intro done mid suf hmid
    have hnil : mid = [] := List.eq_nil_of_length_eq_zero hmid
    subst hnil
    simp
  | cons x xs ih =>
    intro done mid suf hmid
    cases mid with
    | nil => simp at hmid
    | cons m ms =>
      have hms : ms.length = xs.length := by simpa using hmid
      have h1 : setNext (done ++ (m :: ms ++ suf), done.length) (f x)
          = ((done ++ [f x]) ++ (ms ++ suf), (done ++ [f x]).length) := by
        unfold setNext
        rw [List.set_append_right _ _ (Nat.le_refl _)]
        simp
      calc (x :: xs).foldl (fun st y => setNext st (f y)) (done ++ (m :: ms ++ suf), done.length)
          = xs.foldl (fun st y => setNext st (f y))
              ((done ++ [f x]) ++ (ms ++ suf), (done ++ [f x]).length) := by
            rw [List.foldl_cons, h1]
        _ = ((done ++ [f x]) ++ (xs.map f ++ suf), (done ++ [f x]).length + xs.length) :=
            ih (done ++ [f x]) ms suf hms
        _ = (done ++ ((x :: xs).map f ++ suf), done.length + (x :: xs).length) := by
            simp [List.append_assoc]
            omega

/-- The remove-action JSON fragment built by `getAliasQuery`
(src/client.go:420). -/
def removeActionJSON (index aliasName : String) : String :=
  "\x7b \"remove\": \x7b \"index\": \"" ++ index ++ "\", \"alias\": \"" ++ aliasName ++ "\" \x7d\x7d"

/-- The add-action JSON fragment built by `getAliasQuery`
(src/client.go:425). -/
def addActionJSON (index aliasName : String) : String :=
  "\x7b \"add\": \x7b \"index\": \"" ++ index ++ "\", \"alias\": \"" ++ aliasName ++ "\" \x7d\x7d"

/-- `getAliasQuery` (src/client.go:415-430): a slice presized to
`len(remove)+len(add)` is filled by a loop over `remove` writing remove
actions and then a loop over `add` writing add actions, the two sharing the
running index `i`; the comma-join of the slice is wrapped in an
`actions` object. -/
def getAliasQuery (remove add : List String) (aliasName : String) : String :=
  let actions := List.replicate (remove.length + add.length) ""
  let st1 := remove.foldl (fun st index => setNext st (removeActionJSON index aliasName)) (actions, 0)
  let st2 := add.foldl (fun st index => setNext st (addActionJSON index aliasName)) st1
  "\x7b\"actions\": [ " ++ goJoin st2.1 "," ++ " ]\x7d"

/-- The two fill loops of `getAliasQuery` produce exactly the remove
actions (in `remove` order) followed by the add actions (in `add` order). -/
theorem aliasActions_fill (remove add : List String) (aliasName : String) :
    (add.foldl (fun st index => setNext st (addActionJSON index aliasName))
      (remove.foldl (fun st index => setNext st (removeActionJSON index aliasName))
        (List.replicate (remove.length + add.length) "", 0))).1
    = remove.map (fun index => removeActionJSON index aliasName) ++
      add.map (fun index => addActionJSON index aliasName) := by
  rw [List.replicate_add]
  have h1 := foldl_setNext_fill (fun index => removeActionJSON index aliasName) remove
    [] (List.replicate remove.length "") (List.replicate add.length "") (by simp)
  simp only [List.nil_append, List.length_nil, Nat.zero_add] at h1
  rw [h1]
  have h2 := foldl_setNext_fill (fun index => addActionJSON index aliasName) add
    (remove.map fun index => removeActionJSON index aliasName)
    (List.replicate add.length "") [] (by simp)
  simp only [List.append_nil, List.length_map] at h2
  rw [h2]

/-- C4: the body `UpdateAlias` posts to `/_aliases` is an actions object
whose action list is exactly one remove action per element of the remove
list (in order, each naming that index and the aliasName) followed by one add
action per element of the add list (in order), so the list's length is
`remove.length + add.length`. -/
theorem update_alias_query_spec (remove add : List String) (aliasName : String) :
    getAliasQuery remove add aliasName =
      "\x7b\"actions\": [ " ++
        String.intercalate ","
          (remove.map (fun index => removeActionJSON index aliasName) ++
            add.map (fun index => addActionJSON index aliasName)) ++ " ]\x7d" ∧
    (remove.map (fun index => removeActionJSON index aliasName) ++
      add.map (fun index => addActionJSON index aliasName)).length
        = remove.length + add.length := by
  constructor
  · simp only [getAliasQuery]
    rw [aliasActions_fill remove add aliasName, goJoin_eq_intercalate]
  · simp

/-- The `Scheme` and `Host` fields of Go's `url.URL` — the only fields the
client's constructors populate. -/
structure URL where
  Scheme : String
  Host : String
deriving DecidableEq

/-- `url.URL.String()` restricted to the `Scheme` and `Host` fields the
client uses: `scheme:` followed by `//host`. -/
def URL.render (u : URL) : String :=
  (if u.Scheme = "" then "" else u.Scheme ++ ":") ++
  (if u.Host = "" then "" else "//" ++ u.Host)

/-- The client struct (src/client.go:39-41): its only field is the base
URL `Host` configured at construction. -/
structure GoClient where
  Host : URL
deriving DecidableEq

/-- `NewClient` (src/client.go:44-50): builds the base URL from a scheme
and a `host + ":" + port` host component. -/
def NewClient (scheme host port : String) : GoClient :=
  { Host := { Scheme := scheme, Host := host ++ ":" ++ port } }

/-- One outbound HTTP request as the client builds it: verb, target URL,
and optional body. -/
structure ESRequest where
  verb : String
  url : String
  body : Option String
deriving DecidableEq

/-- One call of the `Client` interface (src/client.go:16-36), with the
arguments the caller supplies. -/
inductive APICall : Type
  | CreateIndex (indexName settings : String)
  | DeleteIndex (indexName : String)
  | UpdateIndexSetting (indexName settings : String)
  | IndexSettings (indexName : String)
  | IndexExistsCall (indexName : String)
  | GetMapping (indexName datatype : String)
  | PutMapping (indexName datatype mapping : String)
  | Status (indices : String)
  | InsertDocument (indexName documentType identifier data : String)
  | Document (indexName documentType identifier : String)
  | DeleteDocument (indexName documentType identifier : String)
  | Bulk (data : String)
  | Search (indexName documentType data : String) (explain : Bool)
  | MSearch (queries : List MSearchQuery)
  | CreateSearchTemplate (name template : String)
  | SearchTemplate (indexName data : String) (explain : Bool)
  | Suggest (indexName data : String)
  | GetIndicesFromAlias (aliasName : String)
  | UpdateAlias (remove add : List String) (aliasName : String)

/-- Executing one method call: each branch re-reads `c.Host` to build the
request exactly as the corresponding method does in src/client.go, and
returns the client as the method leaves it — no method ever assigns to the
receiver, so each branch returns `c` itself together with the request it
sends. -/
def step (c : GoClient) (call : APICall) : GoClient × ESRequest :=
  match call with
  | .CreateIndex indexName settings =>
      (c, ⟨"PUT", c.Host.render ++ "/" ++ indexName, some settings⟩)
  | .DeleteIndex indexName =>
      (c, ⟨"DELETE", c.Host.render ++ "/" ++ indexName, none⟩)
  | .UpdateIndexSetting indexName settings =>
      (c, ⟨"PUT", c.Host.render ++ "/" ++ indexName ++ "/_settings", some settings⟩)
  | .IndexSettings indexName =>
      (c, ⟨"GET", c.Host.render ++ "/" ++ indexName ++ "/_settings", none⟩)
  | .IndexExistsCall indexName =>
      (c, ⟨"HEAD", c.Host.render ++ "/" ++ indexName, none⟩)
  | .GetMapping indexName datatype =>
      (c, ⟨"GET", c.Host.render ++ "/" ++ indexName ++ "/_mapping/" ++ datatype, none⟩)
  | .PutMapping indexName datatype mapping =>
      (c, ⟨"PUT", c.Host.render ++ "/" ++ indexName ++ "/_mapping/" ++ datatype, some mapping⟩)
  | .Status indices =>
      (c, ⟨"GET", c.Host.render ++ "/" ++ indices ++ "/_status", none⟩)
  | .InsertDocument indexName documentType identifier data =>
      (c, ⟨"POST", c.Host.render ++ "/" ++ indexName ++ "/" ++ documentType ++ "/" ++ identifier,
        some data⟩)
  | .Document indexName documentType identifier =>
      (c, ⟨"GET", c.Host.render ++ "/" ++ indexName ++ "/" ++ documentType ++ "/" ++ identifier,
        none⟩)
  | .DeleteDocument indexName documentType identifier =>
      (c, ⟨"DELETE", c.Host.render ++ "/" ++ indexName ++ "/" ++ documentType ++ "/" ++ identifier,
        none⟩)
  | .Bulk data =>
      (c, ⟨"POST", c.Host.render ++ "/_bulk", some data⟩)
  | .Search indexName documentType data explain =>
      (c, ⟨"POST", searchURL c.Host.render indexName documentType explain, some data⟩)
  | .MSearch queries =>
      (c, ⟨"POST", c.Host.render ++ "/_msearch", some (mSearchPayload queries)⟩)
  | .CreateSearchTemplate name template =>
      (c, ⟨"POST", c.Host.render ++ "/_search/template/" ++ name, some template⟩)
  | .SearchTemplate indexName data explain =>
      (c, ⟨"POST",
        (let url := c.Host.render ++ "/" ++ indexName ++ "/_search/template";
         if explain then url ++ "?explain" else url), some data⟩)
  | .Suggest indexName data =>
      (c, ⟨"POST", c.Host.render ++ "/" ++ indexName ++ "/_suggest", some data⟩)
  | .GetIndicesFromAlias aliasName =>
      (c, ⟨"GET", c.Host.render ++ "/*/_alias/" ++ aliasName, none⟩)
  | .UpdateAlias remove add aliasName =>
      (c, ⟨"POST", c.Host.render ++ "/_aliases", some (getAliasQuery remove add aliasName)⟩)

/-- The client state after a sequence of method calls. -/
def runCalls (c : GoClient) (calls : List APICall) : GoClient :=
  calls.foldl (fun c call => (step c call).1) c

theorem step_client_eq (c : GoClient) (call : APICall) : (step c call).1 = c := by
  cases call <;> rfl

/-- C7: every method leaves the client's only field unchanged — after any
sequence of method calls, `Host` still equals the value set at
construction. -/
theorem client_host_immutable (c : GoClient) (calls : List APICall) :
    (runCalls c calls).Host = c.Host := by
  induction calls generalizing c with
  | nil => rfl
  | cons call rest ih =>
    show (runCalls (step c call).1 rest).Host = c.Host
    rw [step_client_eq, ih]

/-- `Response` (src/structs.go:6-10): acknowledgement payload. -/
structure Response where
  Acknowledged : Bool
  Error : String
  Status : Int
deriving DecidableEq

/-- The Go zero value `Response{}`. -/
def Response.zero : Response :=
  { Acknowledged := false, Error := "", Status := 0 }

/-- `InsertDocument` (src/structs.go:34-40): result of inserting a
document. -/
structure InsertDocument where
  Created : Bool
  Index : String
  Typ : String
  ID : String
  Version : Int
deriving DecidableEq

/-- The Go zero value `InsertDocument{}`. -/
def InsertDocument.zero : InsertDocument :=
  { Created := false, Index := "", Typ := "", ID := "", Version := 0 }

/-- The anonymous `create` item struct inside `Bulk` (src/structs.go:57-63). -/
structure BulkItemCreate where
  Index : String
  Typ : String
  ID : String
  Status : Int
  Error : String
deriving DecidableEq

/-- The anonymous `index` item struct inside `Bulk` (src/structs.go:64-71). -/
structure BulkItemIndex where
  Index : String
  Typ : String
  ID : String
  Version : Int
  Status : Int
  Error : String
deriving DecidableEq

/-- One element of `Bulk.Items` (src/structs.go:56-72). -/
structure BulkItem where
  Create : BulkItemCreate
  Index : BulkItemIndex
deriving DecidableEq

/-- `Bulk` (src/structs.go:53-73): result of the bulk operation.  `Took` is
a Go `uint64`; the claims do no arithmetic on it, so it is carried as a
`Nat`. -/
structure Bulk where
  Took : Nat
  Errors : Bool
  Items : List BulkItem
deriving DecidableEq

/-- The Go zero value `Bulk{}` (a nil slice reads as empty). -/
def Bulk.zero : Bulk :=
  { Took := 0, Errors := false, Items := [] }

/-- The anonymous `_shards` struct inside `SearchResult`
(src/structs.go:79-83). -/
structure ShardsInfo where
  Total : Int
  Successful : Int
  Failed : Int

/-- One search hit (src/structs.go:87-93); `Score` is a Go `float32`,
carried inertly as `Float`; `Source` is the raw JSON text. -/
structure SearchHit where
  Index : String
  Typ : String
  ID : String
  Score : Float
  Source : String

/-- The `hits` envelope inside `SearchResult` (src/structs.go:84-94). -/
structure SearchHits where
  Total : Int
  MaxScore : Float
  Hits : List SearchHit

/-- `SearchResult` (src/structs.go:76-95). -/
structure SearchResult where
  Took : Nat
  TimedOut : Bool
  Shards : ShardsInfo
  Hits : SearchHits

/-- The Go zero value `SearchResult{}`. -/
def SearchResult.zero : SearchResult :=
  { Took := 0, TimedOut := false,
    Shards := { Total := 0, Successful := 0, Failed := 0 },
    Hits := { Total := 0, MaxScore := 0.0, Hits := [] } }

/-- Result-handling tail of `CreateIndex` (src/client.go:64-79): on a
transport error return `(&Response{}, err)`; otherwise unmarshal, returning
`(&Response{}, err)` on failure and `(esResp, nil)` on success.  The
`Option` on the left models the Go pointer (`none` = nil pointer); the
`Option` on the right models the Go error. -/
def CreateIndexResult (transport : Except String String)
    (unmarshal : String → Except String Response) : Option Response × Option String :=
  match transport with
  | Except.error err => (some Response.zero, some err)
  | Except.ok response =>
    match unmarshal response with
    | Except.error err => (some Response.zero, some err)
    | Except.ok esResp => (some esResp, none)

/-- Result-handling tail of `DeleteIndex` (src/client.go:83-97). -/
def DeleteIndexResult (transport : Except String String)
    (unmarshal : String → Except String Response) : Option Response × Option String :=
  match transport with
  | Except.error err => (some Response.zero, some err)
  | Except.ok response =>
    match unmarshal response with
    | Except.error err => (some Response.zero, some err)
    | Except.ok esResp => (some esResp, none)

/-- Result-handling tail of `InsertDocument` (src/client.go:197-212). -/
def InsertDocumentResult (transport : Except String String)
    (unmarshal : String → Except String InsertDocument) :
    Option InsertDocument × Option String :=
  match transport with
  | Except.error err => (some InsertDocument.zero, some err)
  | Except.ok response =>
    match unmarshal response with
    | Except.error err => (some InsertDocument.zero, some err)
    | Except.ok esResp => (some esResp, none)

/-- Result-handling tail of `Bulk` (src/client.go:253-268). -/
def BulkResult (transport : Except String String)
    (unmarshal : String → Except String Bulk) : Option Bulk × Option String :=
  match transport with
  | Except.error err => (some Bulk.zero, some err)
  | Except.ok response =>
    match unmarshal response with
    | Except.error err => (some Bulk.zero, some err)
    | Except.ok esResp => (some esResp, none)

/-- Result-handling tail of `Search` (src/client.go:282-293). -/
def SearchMethodResult (transport : Except String String)
    (unmarshal : String → Except String SearchResult) :
    Option SearchResult × Option String :=
  match transport with
  | Except.error err => (some SearchResult.zero, some err)
  | Except.ok response =>
    match unmarshal response with
    | Except.error err => (some SearchResult.zero, some err)
    | Except.ok esResp => (some esResp, none)

/-- Result-handling tail of `UpdateAlias` (src/client.go:396-413). -/
def UpdateAliasResult (transport : Except String String)
    (unmarshal : String → Except String Response) : Option Response × Option String :=
  match transport with
  | Except.error err => (some Response.zero, some err)
  | Except.ok response =>
    match unmarshal response with
    | Except.error err => (some Response.zero, some err)
    | Except.ok esResp => (some esResp, none)

/-- C8: each of `CreateIndex`, `DeleteIndex`, `InsertDocument`, `Bulk`,
`Search` and `UpdateAlias` never returns a nil result pointer, and on a
transport failure or an unmarshal failure returns a fresh zero-valued
result struct together with the non-nil error. -/
theorem api_result_never_nil
    (t1 t2 t3 t4 t5 t6 : Except String String)
    (u1 u2 u6 : String → Except String Response)
    (u3 : String → Except String InsertDocument)
    (u4 : String → Except String Bulk)
    (u5 : String → Except String SearchResult) :
    ((CreateIndexResult t1 u1).1.isSome = true ∧
      (∀ e, t1 = Except.error e → CreateIndexResult t1 u1 = (some Response.zero, some e)) ∧
      (∀ b e, t1 = Except.ok b → u1 b = Except.error e →
        CreateIndexResult t1 u1 = (some Response.zero, some e))) ∧
    ((DeleteIndexResult t2 u2).1.isSome = true ∧
      (∀ e, t2 = Except.error e → DeleteIndexResult t2 u2 = (some Response.zero, some e)) ∧
      (∀ b e, t2 = Except.ok b → u2 b = Except.error e →
        DeleteIndexResult t2 u2 = (some Response.zero, some e))) ∧
    ((InsertDocumentResult t3 u3).1.isSome = true ∧
      (∀ e, t3 = Except.error e →
        InsertDocumentResult t3 u3 = (some InsertDocument.zero, some e)) ∧
      (∀ b e, t3 = Except.ok b → u3 b = Except.error e →
        InsertDocumentResult t3 u3 = (some InsertDocument.zero, some e))) ∧
    ((BulkResult t4 u4).1.isSome = true ∧
      (∀ e, t4 = Except.error e → BulkResult t4 u4 = (some Bulk.zero, some e)) ∧
      (∀ b e, t4 = Except.ok b → u4 b = Except.error e →
        BulkResult t4 u4 = (some Bulk.zero, some e))) ∧
    ((SearchMethodResult t5 u5).1.isSome = true ∧
      (∀ e, t5 = Except.error e →
        SearchMethodResult t5 u5 = (some SearchResult.zero, some e)) ∧
      (∀ b e, t5 = Except.ok b → u5 b = Except.error e →
        SearchMethodResult t5 u5 = (some SearchResult.zero, some e))) ∧
    ((UpdateAliasResult t6 u6).1.isSome = true ∧
      (∀ e, t6 = Except.error e → UpdateAliasResult t6 u6 = (some Response.zero, some e)) ∧
      (∀ b e, t6 = Except.ok b → u6 b = Except.error e →
        UpdateAliasResult t6 u6 = (some Response.zero, some e))) := by
  refine ⟨⟨?_, ?_, ?_⟩, ⟨?_, ?_, ?_⟩, ⟨?_, ?_, ?_⟩, ⟨?_, ?_, ?_⟩, ⟨?_, ?_, ?_⟩, ⟨?_, ?_, ?_⟩⟩
  case _ => cases t1 with
    | error e => rfl
    | ok b => cases h : u1 b <;> simp [CreateIndexResult, h]
  case _ => intro e he; subst he; rfl
  case _ => intro b e hb hu; subst hb; simp [CreateIndexResult, hu]
  case _ => cases t2 with
    | error e => rfl
    | ok b => cases h : u2 b <;> simp [DeleteIndexResult, h]
  case _ => intro e he; subst he; rfl
  case _ => intro b e hb hu; subst hb; simp [DeleteIndexResult, hu]
  case _ => cases t3 with
    | error e => rfl
    | ok b => cases h : u3 b <;> simp [InsertDocumentResult, h]
  case _ => intro e he; subst he; rfl
  case _ => intro b e hb hu; subst hb; simp [InsertDocumentResult, hu]
  case _ => cases t4 with
    | error e => rfl
    | ok b => cases h : u4 b <;> simp [BulkResult, h]
  case _ => intro e he; subst he; rfl
  case _ => intro b e hb hu; subst hb; simp [BulkResult, hu]
  case _ => cases t5 with
    | error e => rfl
    | ok b => cases h : u5 b <;> simp [SearchMethodResult, h]
  case _ => intro e he; subst he; rfl
  case _ => intro b e hb hu; subst hb; simp [SearchMethodResult, hu]
  case _ => cases t6 with
    | error e => rfl
    | ok b => cases h : u6 b <;> simp [UpdateAliasResult, h]
  case _ => intro e he; subst he; rfl
  case _ => intro b e hb hu; subst hb; simp [UpdateAliasResult, hu]

/-- Witness for C8: a failed transport on `CreateIndex` yields the fresh
zero `Response` and the transport error. -/
theorem api_result_never_nil_witness :
    CreateIndexResult (Except.error "conn refused") (fun _ => Except.ok Response.zero) =
      (some Response.zero, some "conn refused") :=
  (api_result_never_nil (Except.error "conn refused") (Except.error "e") (Except.error "e")
      (Except.error "e") (Except.error "e") (Except.error "e")
      (fun _ => Except.ok Response.zero) (fun _ => Except.ok Response.zero)
      (fun _ => Except.ok Response.zero)
      (fun _ => Except.ok InsertDocument.zero)
      (fun _ => Except.ok Bulk.zero)
      (fun _ => Except.ok SearchResult.zero)).1.2.1 "conn refused" rfl

/-- `IndexExists` (src/client.go:140-149): issues a HEAD request directly
through `http.Client.Head`, bypassing `sendHTTPRequest` and its status
classification entirely; a request error yields `(false, err)`, and any
completed response yields `(StatusCode == http.StatusOK, nil)`. -/
def IndexExists (head : Except String HTTPResponse) : Bool × Option String :=
  match head with
  | Except.error err => (false, some err)
  | Except.ok newReq => (newReq.statusCode == statusOK, none)

/-- C9: `IndexExists` returns `(true, nil)` exactly when the HEAD request
completes with status 200, `(false, nil)` for every other completed status
(including 5xx), and a non-nil error only when the request itself fails. -/
theorem index_exists_spec (head : Except String HTTPResponse) :
    (IndexExists head = (true, none) ↔ ∃ r, head = Except.ok r ∧ r.statusCode = 200) ∧
    (∀ r, head = Except.ok r → r.statusCode ≠ 200 → IndexExists head = (false, none)) ∧
    (∀ e, head = Except.error e → IndexExists head = (false, some e)) := by
  refine ⟨?_, ?_, ?_⟩
  · cases head with
    | error e => simp [IndexExists]
    | ok r => simp [IndexExists, statusOK]
  · intro r hr hne
    subst hr
    simp [IndexExists, statusOK, hne]
  · intro e he
    subst he
    rfl

/-- Witness for C9: a completed 503 response yields `(false, nil)`. -/
theorem index_exists_spec_witness :
    IndexExists (Except.ok ⟨503, "down"⟩) = (false, none) :=
  (index_exists_spec (Except.ok ⟨503, "down"⟩)).2.1 ⟨503, "down"⟩ rfl (by decide)

/-- Key extraction in `GetIndicesFromAlias` (src/client.go:379-391): the
response unmarshals into a Go map, modelled here by its iteration order —
an association list whose keys are pairwise distinct; `indices` is presized
to `len(esResp)` and the range loop writes one key per entry. -/
def getIndicesFromAlias (esResp : List (String × String)) : List String :=
  let indices := List.replicate esResp.length ""
  (esResp.foldl (fun st kv => setNext st kv.1) (indices, 0)).1

/-- C10: for a successful alias lookup, `GetIndicesFromAlias` returns
exactly the top-level keys of the response object, one entry per key, with
length equal to the number of keys (in map iteration order). -/
theorem get_indices_spec (esResp : List (String × String))
    (hkeys : (esResp.map Prod.fst).Nodup) :
    getIndicesFromAlias esResp = esResp.map Prod.fst ∧
    (getIndicesFromAlias esResp).length = esResp.length ∧
    (∀ k, k ∈ getIndicesFromAlias esResp ↔ ∃ v, (k, v) ∈ esResp) := by
  have hfill := foldl_setNext_fill (fun kv : String × String => kv.1) esResp
    [] (List.replicate esResp.length "") [] (by simp)
  simp only [List.append_nil, List.nil_append, List.length_nil, Nat.zero_add] at hfill
  have hmain : getIndicesFromAlias esResp = esResp.map Prod.fst := by
    simp only [getIndicesFromAlias]
    rw [hfill]
  refine ⟨hmain, ?_, ?_⟩
  · rw [hmain, List.length_map]
  · intro k
    rw [hmain]
    constructor
    · intro hk
      rcases List.mem_map.1 hk with ⟨⟨a, b⟩, hmem, hfst⟩
      exact ⟨b, by simpa [← hfst] using hmem⟩
    · rintro ⟨v, hv⟩
      exact List.mem_map.2 ⟨(k, v), hv, rfl⟩

/-- Witness for C10: a two-key object yields exactly its two keys. -/
theorem get_indices_spec_witness :
    getIndicesFromAlias [("idx-a", "j1"), ("idx-b", "j2")] = ["idx-a", "idx-b"] :=
  (get_indices_spec [("idx-a", "j1"), ("idx-b", "j2")] (by decide)).1

end ESClient
